import Mathlib

/-!
Shallow embedding of the core of `RealTimeTranslator`
(`soruce/api_server.py` and `soruce/database.py`):

* the `/api/translate` endpoint's retry/backoff loop and input validation
  (`api_server.py`, function `translate`);
* the per-event analytics upsert (`database.py`,
  `TranslationRepository.save_translation`);
* the favorite toggle (`TranslationRepository.set_favorite_language_pair`);
* the top-language-pairs query of
  `TranslationRepository.get_comprehensive_user_statistics`;
* the trend computation of `TranslationRepository.get_daily_analytics`.

Machine floats (`FLOAT` columns, Python floats) are modelled by `ℚ`
(exact arithmetic; the spec's claims are stated "within floating-point
tolerance"). Timestamps are modelled by `ℕ`.
-/

namespace RTT

/-- A single provider call outcome, as observed by the retry loop in
`api_server.translate`: either the call raised an exception / returned a
structurally invalid object (`err`), or it returned an object with a
`text` field and an optional `confidence` field (`ok`). -/
inductive PResp where
  | err : PResp
  | ok (text : String) (confidence : Option ℚ) : PResp
deriving DecidableEq, Repr

/-- Python's `str.strip()` (no arguments): remove leading and trailing
whitespace, written structurally over the character list. -/
def pyStrip (s : String) : String :=
  ⟨((s.data.dropWhile Char.isWhitespace).reverse.dropWhile Char.isWhitespace).reverse⟩

/-- Validity test of `api_server.py` line 246:
`if result and hasattr(result, 'text') and result.text and result.text.strip()`.
A response is valid when its text is non-empty and not whitespace-only. -/
def validResp : PResp → Bool
  | .err => false
  | .ok t _ => (t != "") && (pyStrip t != "")

/-- Result of the retry loop: the accepted valid response (`none` when all
attempts were exhausted, i.e. the early `503` return fired), the sleeps
performed (in seconds, in order), and the number of provider calls made. -/
structure LoopResult where
  success : Option PResp
  sleeps : List ℕ
  calls : ℕ
deriving DecidableEq, Repr

/-- The body of `for attempt in range(max_retries)` in `api_server.translate`
(lines 239-263), with `provider i` the outcome of the call made on attempt
index `i` (0-based).  On a valid response the loop breaks; on a failure with
a later attempt remaining it sleeps `(2 ** attempt) * 2` seconds and retries;
a failure on the last attempt returns the 503 path with no further sleep. -/
def retryAux (provider : ℕ → PResp) : List ℕ → LoopResult
  | [] => ⟨none, [], 0⟩
  | a :: rest =>
    if validResp (provider a) then ⟨some (provider a), [], 1⟩
    else if rest.isEmpty then ⟨none, [], 1⟩
    else
      let r := retryAux provider rest
      ⟨r.success, (2 ^ a) * 2 :: r.sleeps, r.calls + 1⟩

/-- The retry loop with `max_retries = 5`: attempts are indexed 0..4. -/
def translateRetry (provider : ℕ → PResp) : LoopResult :=
  retryAux provider [0, 1, 2, 3, 4]

/-- Number of leading failed attempts among the five attempt slots
(5 when all five provider calls are invalid). -/
def leadingFailures (provider : ℕ → PResp) : ℕ :=
  if validResp (provider 0) then 0
  else if validResp (provider 1) then 1
  else if validResp (provider 2) then 2
  else if validResp (provider 3) then 3
  else if validResp (provider 4) then 4
  else 5

/-! ### Database model (`database.py`) -/

/-- One row of the `user_language_stats` table (schema at
`database.py` lines 153-174).  `FLOAT` columns are modelled by `ℚ`,
`TIMESTAMP` by `ℕ`. -/
structure StatRow where
  user_email : String
  language_pair : String
  translation_count : ℕ
  character_count : ℕ
  avg_translation_time : ℚ
  total_translation_time : ℕ
  avg_confidence_score : ℚ
  favorite_pair : Bool
  last_used : ℕ
deriving DecidableEq, Repr

/-- One translation event as recorded by `save_translation`:
character count, elapsed time in ms, confidence score, creation time. -/
structure Event where
  charCount : ℕ
  timeMs : ℕ
  conf : ℚ
  createdAt : ℕ
deriving DecidableEq, Repr

/-- The `ON DUPLICATE KEY UPDATE` branch of the `user_language_stats`
statement in `save_translation` (`database.py` lines 317-323).  MySQL
evaluates the assignment list left to right and later references see the
updated value, so `translation_count` in the two average expressions is
already the incremented count. -/
def updateStatRow (r : StatRow) (e : Event) : StatRow :=
  let newCount : ℕ := r.translation_count + 1
  { r with
    translation_count := newCount
    character_count := r.character_count + e.charCount
    avg_translation_time :=
      (r.avg_translation_time * ((newCount : ℚ) - 1) + (e.timeMs : ℚ)) / (newCount : ℚ)
    total_translation_time := r.total_translation_time + e.timeMs
    avg_confidence_score :=
      (r.avg_confidence_score * ((newCount : ℚ) - 1) + e.conf) / (newCount : ℚ)
    last_used := e.createdAt }

/-- The `INSERT` branch of the same statement (`database.py` lines 313-316):
a fresh row with count 1; `favorite_pair` takes its schema default `FALSE`. -/
def newStatRow (email pair : String) (e : Event) : StatRow :=
  { user_email := email
    language_pair := pair
    translation_count := 1
    character_count := e.charCount
    avg_translation_time := (e.timeMs : ℚ)
    total_translation_time := e.timeMs
    avg_confidence_score := e.conf
    favorite_pair := false
    last_used := e.createdAt }

/-- Whether a stats row for the unique key `(user_email, language_pair)`
exists (the table has `UNIQUE KEY unique_user_pair`). -/
def hasStatKey (stats : List StatRow) (email pair : String) : Bool :=
  stats.any fun r => r.user_email == email && r.language_pair == pair

/-- The whole `INSERT ... ON DUPLICATE KEY UPDATE` on `user_language_stats`
as a list transformation: update the keyed row when present, otherwise
append the fresh row. -/
def upsertStats (stats : List StatRow) (email pair : String) (e : Event) :
    List StatRow :=
  if hasStatKey stats email pair then
    stats.map fun r =>
      if r.user_email == email && r.language_pair == pair then updateStatRow r e else r
  else stats ++ [newStatRow email pair e]

/-- The stats table after recording a sequence of events for one
`(user, language pair)` key via the per-event upsert, starting from an
empty table. -/
def statsAfter (email pair : String) (es : List Event) : List StatRow :=
  es.foldl (fun s e => upsertStats s email pair e) []

/-- One row of the `users` table, restricted to the counter columns
updated by `save_translation` (`database.py` lines 303-308). -/
structure UserRow where
  email : String
  total_translations : ℕ
  total_characters : ℕ
deriving DecidableEq, Repr

/-- One row of the `translations` table, restricted to the columns
inserted by `save_translation` (`database.py` lines 289-300). -/
structure TransRow where
  user_email : String
  source_language : String
  target_language : String
  original_text : String
  translated_text : String
  character_count : ℕ
  translation_time_ms : ℕ
  confidence_score : ℚ
  created_at : ℕ
deriving DecidableEq, Repr

/-- The database state touched by the translate endpoint. -/
structure DBState where
  users : List UserRow
  translations : List TransRow
  stats : List StatRow
deriving DecidableEq, Repr

/-- Embeds `TranslationRepository.create_or_get_user` (`database.py` lines 246-279),
restricted to the modelled columns: insert the user row when absent
(counters start at their schema defaults 0). -/
def create_or_get_user (db : DBState) (email : String) : DBState :=
  if db.users.any (fun u => u.email == email) then db
  else { db with users := db.users ++ [⟨email, 0, 0⟩] }

/-- Embeds `TranslationRepository.save_translation` (`database.py` lines 281-332):
insert the translation row, bump the user counters, and upsert the
`user_language_stats` row for `source_lang ++ "-" ++ target_lang`. -/
def save_translation (db : DBState) (email src tgt orig trans : String)
    (e : Event) : DBState :=
  { users := db.users.map fun u =>
      if u.email == email then
        { u with total_translations := u.total_translations + 1
                 total_characters := u.total_characters + e.charCount }
      else u
    translations := db.translations ++
      [⟨email, src, tgt, orig, trans, e.charCount, e.timeMs, e.conf, e.createdAt⟩]
    stats := upsertStats db.stats email (src ++ "-" ++ tgt) e }

/-- Embeds `TranslationRepository.set_favorite_language_pair`
(`database.py` lines 891-917): when `is_favorite` is true, first clear
`favorite_pair` on every row of the user, then set `favorite_pair` on the
(possibly absent) keyed row; returns `True` (the `except` branch returning
`False` models an unmodelled storage failure). -/
def set_favorite_language_pair (stats : List StatRow)
    (email pair : String) (is_favorite : Bool) : List StatRow × Bool :=
  let s1 := if is_favorite then
      stats.map fun r =>
        if r.user_email == email then { r with favorite_pair := false } else r
    else stats
  let s2 := s1.map fun r =>
    if r.user_email == email && r.language_pair == pair then
      { r with favorite_pair := is_favorite }
    else r
  (s2, true)

/-! ### The `/api/translate` endpoint (`api_server.py` lines 177-354) -/

/-- The request body fields read by the endpoint.  `Option` models absent
JSON keys; Python's falsiness test `if not source_lang` also treats the
empty string as absent, which the embedding reproduces via `getD ""`. -/
structure TranslateRequest where
  text : String
  source_lang : Option String
  source_lang_name : Option String
  target_lang : Option String
  target_lang_name : Option String
deriving DecidableEq, Repr

/-- The static language table (`googletrans.LANGUAGES`): a list of
`(code, name)` entries, passed as a parameter. -/
abbrev LangTable := List (String × String)

/-- Embeds `api_server.validate_language_code`: membership of the code in the
language table. -/
def validate_language_code (langs : LangTable) (code : String) : Bool :=
  langs.any fun cn => cn.1 == code

/-- Embeds `api_server.get_language_code`: reverse lookup name → code, defaulting
to the name itself.  The Python reverse dict keeps the last entry for a
duplicated name, hence the lookup over the reversed list. -/
def get_language_code (langs : LangTable) (lang_name : String) : String :=
  match langs.reverse.find? (fun cn => cn.2 == lang_name) with
  | some cn => cn.1
  | none => lang_name

/-- Language-argument resolution for one side (`api_server.py` lines
208-224): use the code when present and non-empty, otherwise map the
non-empty name through `get_language_code`; `none` is the 400 response
for a missing argument. -/
def resolveLang (langs : LangTable) (code? lang_name? : Option String) :
    Option String :=
  let c := code?.getD ""
  if c ≠ "" then some c
  else
    match lang_name? with
    | some n => if n ≠ "" then some (get_language_code langs n) else none
    | none => none

/-- The observable outcome of one call of the endpoint: HTTP status,
the `success` flag of the JSON body, sleeps performed, number of provider
calls made, and the database state afterwards. -/
structure TranslateResponse where
  status : ℕ
  success : Bool
  sleeps : List ℕ
  providerCalls : ℕ
  db : DBState
deriving DecidableEq, Repr

/-- The `/api/translate` endpoint (`api_server.py` lines 177-354):
validation (strip text, emptiness, `MAX_TEXT_LENGTH`, language
resolution and table membership), the retry loop, the post-loop
validity checks, and the best-effort database block.  `dbAvailable`
models `DATABASE_AVAILABLE and translation_repo`; `saveOk = false`
models a storage failure inside the database block, which the code
catches and merely logs (`api_server.py` lines 330-331) — the database
is then unchanged.  `latencyMs` is the measured wall-clock elapsed time
and `now` the insertion timestamp, both external inputs. -/
def translateEndpoint (langs : LangTable) (maxLen : ℕ) (provider : ℕ → PResp)
    (dbAvailable saveOk : Bool) (req : TranslateRequest) (userEmail : String)
    (latencyMs now : ℕ) (db : DBState) : TranslateResponse :=
  let text := pyStrip req.text
  if text = "" then ⟨400, false, [], 0, db⟩
  else if maxLen < text.length then ⟨400, false, [], 0, db⟩
  else
    match resolveLang langs req.source_lang req.source_lang_name with
    | none => ⟨400, false, [], 0, db⟩
    | some source_lang =>
      match resolveLang langs req.target_lang req.target_lang_name with
      | none => ⟨400, false, [], 0, db⟩
      | some target_lang =>
        if !validate_language_code langs source_lang then ⟨400, false, [], 0, db⟩
        else if !validate_language_code langs target_lang then ⟨400, false, [], 0, db⟩
        else
          let r := translateRetry provider
          match r.success with
          | none => ⟨503, false, r.sleeps, r.calls, db⟩
          | some resp =>
            match resp with
            | .err => ⟨503, false, r.sleeps, r.calls, db⟩
            | .ok rawText conf? =>
              let translated := pyStrip rawText
              if translated = "" then ⟨503, false, r.sleeps, r.calls, db⟩
              else
                let e : Event :=
                  ⟨text.length, latencyMs, conf?.getD 0, now⟩
                let db' :=
                  if dbAvailable then
                    if saveOk then
                      save_translation (create_or_get_user db userEmail)
                        userEmail source_lang target_lang text translated e
                    else db
                  else db
                ⟨200, true, r.sleeps, r.calls, db'⟩

/-! ### Statistics queries (`database.py`) -/

/-- One aggregated row of the top-language-pairs query in
`get_comprehensive_user_statistics` (`database.py` lines 585-597):
`COUNT(*)`, `SUM(character_count)` and `MAX(created_at)` per
`(source_language, target_language)` group (the selected
`AVG(character_count)` is `total_characters / count`, derived). -/
structure PairAgg where
  language_pair : String
  count : ℕ
  total_characters : ℕ
  last_used : ℕ
deriving DecidableEq, Repr

/-- Fold one translation row into the running `GROUP BY` state, groups
kept in first-occurrence order. -/
def groupStep (acc : List PairAgg) (row : TransRow) : List PairAgg :=
  let pair := row.source_language ++ "-" ++ row.target_language
  if acc.any (fun g => g.language_pair == pair) then
    acc.map fun g =>
      if g.language_pair == pair then
        { g with count := g.count + 1
                 total_characters := g.total_characters + row.character_count
                 last_used := max g.last_used row.created_at }
      else g
  else acc ++ [⟨pair, 1, row.character_count, row.created_at⟩]

/-- The `GROUP BY source_language, target_language` step over the user's rows. -/
def groupPairs (rows : List TransRow) : List PairAgg :=
  rows.foldl groupStep []

/-- Insertion step of a stable descending sort on `count`. -/
def insertByCount (a : PairAgg) : List PairAgg → List PairAgg
  | [] => [a]
  | b :: bs => if b.count ≤ a.count then a :: b :: bs else b :: insertByCount a bs

/-- The `ORDER BY count DESC` step as a stable sort (the SQL names no tie-break
key; equal-count groups keep their grouped order). -/
def sortByCountDesc : List PairAgg → List PairAgg
  | [] => []
  | a :: as => insertByCount a (sortByCountDesc as)

/-- The top-language-pairs query (`database.py` lines 585-597) for one
user: group the user's translation rows by language pair, order by
descending count, `LIMIT 20`. -/
def topLanguagePairs (rows : List TransRow) (user : String) : List PairAgg :=
  (sortByCountDesc (groupPairs (rows.filter fun r => r.user_email == user))).take 20

/-- The local `recent_avg` of `get_daily_analytics` (`database.py` line
681): `sum(d['translations'] for d in daily_data[:7]) / min(7, len(daily_data))`,
over the per-day translation counts `s`, most recent day first. -/
def recentAvg (s : List ℕ) : ℚ :=
  ((s.take 7).sum : ℚ) / ((min 7 s.length : ℕ) : ℚ)

/-- The local `older_avg` (`database.py` line 682):
`sum(daily_data[7:14]) / min(7, len(daily_data[7:14]))` when more than 7
days exist, otherwise `recent_avg`. -/
def olderAvg (s : List ℕ) : ℚ :=
  if 7 < s.length then
    (((s.drop 7).take 7).sum : ℚ) / ((min 7 ((s.drop 7).take 7).length : ℕ) : ℚ)
  else recentAvg s

/-- The trend computation of `get_daily_analytics` (`database.py` lines
679-685): `(recent_avg - older_avg) / older_avg * 100` when
`older_avg > 0`, else `0`; `0` outright with at most one data point.
(The reported `trend_percentage` is this value rounded to two decimals
for display, `database.py` line 706.) -/
def trend (s : List ℕ) : ℚ :=
  if 1 < s.length then
    if 0 < olderAvg s then (recentAvg s - olderAvg s) / olderAvg s * 100 else 0
  else 0

/-- The spec's `recentMean`: mean of the most recent 7 data points
(fewer when fewer exist; `0` on no data). -/
def recentMean (s : List ℕ) : ℚ :=
  if (s.take 7).length = 0 then 0
  else ((s.take 7).sum : ℚ) / ((s.take 7).length : ℚ)

/-- The spec's `priorMean`: mean of the 7 data points before the most
recent 7 (fewer when fewer exist; `0` on no data). -/
def priorMean (s : List ℕ) : ℚ :=
  if ((s.drop 7).take 7).length = 0 then 0
  else (((s.drop 7).take 7).sum : ℚ) / (((s.drop 7).take 7).length : ℚ)

/-! ### Theorems: retry loop (C2, C3) -/

/-- C2: In the translate retry loop (maximum 5 attempts, base delay 2
seconds), after each failed attempt k for k = 1..4 the orchestrator sleeps
exactly 2, 4, 8, 16 seconds respectively before attempt k+1 (so the sleeps
performed are the first `min(failures, 4)` entries of `[2, 4, 8, 16]`), and
a failure of attempt 5 produces no further delay before the terminal
failure is returned. -/
theorem translate_backoff_sequence (provider : ℕ → PResp) :
    (translateRetry provider).sleeps
        = List.take (min (leadingFailures provider) 4) [2, 4, 8, 16]
      ∧ (leadingFailures provider = 5 →
          (translateRetry provider).success = none
            ∧ (translateRetry provider).sleeps = [2, 4, 8, 16]) := by
  by_cases h0 : validResp (provider 0) <;>
  by_cases h1 : validResp (provider 1) <;>
  by_cases h2 : validResp (provider 2) <;>
  by_cases h3 : validResp (provider 3) <;>
  by_cases h4 : validResp (provider 4) <;>
  simp [translateRetry, retryAux, leadingFailures, h0, h1, h2, h3, h4]

/-- Witness for C2 at an always-failing provider. -/
theorem translate_backoff_sequence_witness :
    (translateRetry fun _ => PResp.err).sleeps = [2, 4, 8, 16]
      ∧ (translateRetry fun _ => PResp.err).success = none := by
  have h := translate_backoff_sequence fun _ => PResp.err
  have h5 : leadingFailures (fun _ => PResp.err) = 5 := by decide
  exact ⟨(h.2 h5).2, (h.2 h5).1⟩

/-- The retry loop depends on a provider only through validity of each
response and the responses themselves at valid slots. -/
theorem retryAux_congr (f g : ℕ → PResp) :
    ∀ l : List ℕ,
      (∀ a ∈ l, validResp (f a) = validResp (g a)
        ∧ (validResp (f a) = true → f a = g a)) →
      retryAux f l = retryAux g l := by
  intro l
  induction l with
  | nil => intro _; rfl
  | cons a rest ih =>
    intro h
    have ha := h a (List.mem_cons_self a rest)
    have hrest := fun b hb => h b (List.mem_cons_of_mem a hb)
    by_cases hv : validResp (f a)
    · have hfg : f a = g a := ha.2 hv
      simp [retryAux, hv, hfg ▸ hv, hfg]
    · have hv' : ¬ validResp (g a) := by rw [← ha.1]; exact hv
      simp [retryAux, hv, hv', ih hrest]

/-- C3: A provider response whose text field is present but empty or
whitespace-only is treated exactly like a thrown provider error: the retry
loop produces the same result (same accepted response, same sleeps, same
number of consumed attempts) as if that attempt had raised. -/
theorem whitespace_response_is_failure (f : ℕ → PResp) (k : ℕ) (t : String)
    (c : Option ℚ) (hk : f k = PResp.ok t c) (ht : pyStrip t = "") :
    translateRetry f = translateRetry fun i => if i = k then PResp.err else f i := by
  apply retryAux_congr
  intro a _
  by_cases hak : a = k
  · subst hak
    have hval : validResp (f a) = false := by
      rw [hk]
      simp [validResp, ht]
    constructor
    · rw [hval]
      simp [validResp]
    · intro hv
      rw [hval] at hv
      exact absurd hv (by simp)
  · simp [hak]

/-- Witness for C3: a whitespace-only first response behaves like an error
on the first attempt. -/
theorem whitespace_response_is_failure_witness :
    translateRetry (fun i => if i = 0 then PResp.ok "  " none else PResp.err)
      = translateRetry fun i =>
          if i = 0 then PResp.err
          else if i = 0 then PResp.ok "  " none else PResp.err := by
  exact whitespace_response_is_failure
    (fun i => if i = 0 then PResp.ok "  " none else PResp.err) 0 "  " none
    (by simp) (by decide)

/-! ### Theorems: endpoint error handling (C4, C5, C7) -/

/-- When all five provider calls fail, the retry loop exits through the
early 503 return after sleeping 2, 4, 8, 16 seconds. -/
theorem translateRetry_all_fail (provider : ℕ → PResp)
    (h : ∀ i, i < 5 → validResp (provider i) = false) :
    translateRetry provider = ⟨none, [2, 4, 8, 16], 5⟩ := by
  have h0 := h 0 (by omega)
  have h1 := h 1 (by omega)
  have h2 := h 2 (by omega)
  have h3 := h 3 (by omega)
  have h4 := h 4 (by omega)
  simp [translateRetry, retryAux, h0, h1, h2, h3, h4]

/-- A valid response carries a text whose strip is non-empty. -/
theorem validResp_ok {r : PResp} (h : validResp r = true) :
    ∃ t c, r = PResp.ok t c ∧ pyStrip t ≠ "" := by
  cases r with
  | err => simp [validResp] at h
  | ok t c =>
    refine ⟨t, c, rfl, ?_⟩
    simp [validResp] at h
    exact h.2

/-- If some attempt among the five is valid, the loop accepts the first
valid response. -/
theorem translateRetry_first_valid (provider : ℕ → PResp)
    (h : ∃ i, i < 5 ∧ validResp (provider i) = true) :
    ∃ j, j < 5 ∧ validResp (provider j) = true
      ∧ (translateRetry provider).success = some (provider j) := by
  by_cases h0 : validResp (provider 0)
  · exact ⟨0, by omega, h0, by simp [translateRetry, retryAux, h0]⟩
  · by_cases h1 : validResp (provider 1)
    · exact ⟨1, by omega, h1, by simp [translateRetry, retryAux, h0, h1]⟩
    · by_cases h2 : validResp (provider 2)
      · exact ⟨2, by omega, h2, by simp [translateRetry, retryAux, h0, h1, h2]⟩
      · by_cases h3 : validResp (provider 3)
        · exact ⟨3, by omega, h3, by simp [translateRetry, retryAux, h0, h1, h2, h3]⟩
        · by_cases h4 : validResp (provider 4)
          · exact ⟨4, by omega, h4, by simp [translateRetry, retryAux, h0, h1, h2, h3, h4]⟩
          · obtain ⟨i, hi, hv⟩ := h
            interval_cases i <;> simp_all

/-- C4: a provider that fails or returns an invalid response on all 5
attempts makes the endpoint return exactly the 503 terminal failure, after
the backoff sleeps 2, 4, 8, 16 and five provider calls, with the database
state untouched (no translation row, no user counters, no stats row). -/
theorem provider_exhaustion_503 (langs : LangTable) (maxLen : ℕ)
    (provider : ℕ → PResp) (dbAvailable saveOk : Bool) (req : TranslateRequest)
    (userEmail : String) (latencyMs now : ℕ) (db : DBState)
    (htext : pyStrip req.text ≠ "")
    (hlen : (pyStrip req.text).length ≤ maxLen)
    (hsl : ∃ s, resolveLang langs req.source_lang req.source_lang_name = some s
        ∧ validate_language_code langs s = true)
    (htl : ∃ t, resolveLang langs req.target_lang req.target_lang_name = some t
        ∧ validate_language_code langs t = true)
    (hfail : ∀ i, i < 5 → validResp (provider i) = false) :
    translateEndpoint langs maxLen provider dbAvailable saveOk req userEmail
        latencyMs now db
      = ⟨503, false, [2, 4, 8, 16], 5, db⟩ := by
  obtain ⟨s, hs, hsv⟩ := hsl
  obtain ⟨t, ht, htv⟩ := htl
  have hloop := translateRetry_all_fail provider hfail
  simp [translateEndpoint, htext, Nat.not_lt.mpr hlen, hs, ht, hsv, htv, hloop]

/-- Witness for C4 on a concrete valid request and an always-failing
provider. -/
theorem provider_exhaustion_503_witness :
    translateEndpoint [("en", "english"), ("es", "spanish")] 5000
        (fun _ => PResp.err) true true
        ⟨"Hello", some "en", none, some "es", none⟩ "u@example.com" 120 7
        ⟨[], [], []⟩
      = ⟨503, false, [2, 4, 8, 16], 5, ⟨[], [], []⟩⟩ :=
  provider_exhaustion_503 _ _ _ _ _ _ _ _ _ _ (by decide) (by decide)
    ⟨"en", by decide, by decide⟩ ⟨"es", by decide, by decide⟩ (fun i _ => rfl)

/-- C5: a request with empty (after strip) text, text longer than the
configured maximum, or an explicit source/target language code absent from
the static language table is rejected with a 400 response before any
provider call: no attempt is consumed, no sleep happens, the database is
untouched. -/
theorem invalid_input_rejected (langs : LangTable) (maxLen : ℕ)
    (provider : ℕ → PResp) (dbAvailable saveOk : Bool) (req : TranslateRequest)
    (userEmail : String) (latencyMs now : ℕ) (db : DBState)
    (h : pyStrip req.text = ""
       ∨ maxLen < (pyStrip req.text).length
       ∨ (∃ s, req.source_lang = some s ∧ s ≠ ""
            ∧ validate_language_code langs s = false)
       ∨ (∃ t, req.target_lang = some t ∧ t ≠ ""
            ∧ validate_language_code langs t = false)) :
    translateEndpoint langs maxLen provider dbAvailable saveOk req userEmail
        latencyMs now db
      = ⟨400, false, [], 0, db⟩ := by
  rcases h with h | h | ⟨s, hs, hsne, hsv⟩ | ⟨t, ht, htne, htv⟩
  · simp [translateEndpoint, h]
  · simp [translateEndpoint, h]
  · have hres : resolveLang langs req.source_lang req.source_lang_name = some s := by
      simp [resolveLang, hs, hsne]
    by_cases h1 : pyStrip req.text = ""
    · simp [translateEndpoint, h1]
    · by_cases h2 : maxLen < (pyStrip req.text).length
      · simp [translateEndpoint, h1, h2]
      · cases h3 : resolveLang langs req.target_lang req.target_lang_name with
        | none => simp [translateEndpoint, h1, h2, hres, h3]
        | some t2 => simp [translateEndpoint, h1, h2, hres, h3, hsv]
  · have hres : resolveLang langs req.target_lang req.target_lang_name = some t := by
      simp [resolveLang, ht, htne]
    by_cases h1 : pyStrip req.text = ""
    · simp [translateEndpoint, h1]
    · by_cases h2 : maxLen < (pyStrip req.text).length
      · simp [translateEndpoint, h1, h2]
      · cases h3 : resolveLang langs req.source_lang req.source_lang_name with
        | none => simp [translateEndpoint, h1, h2, h3]
        | some s2 =>
          by_cases h4 : validate_language_code langs s2
          · simp [translateEndpoint, h1, h2, h3, h4, hres, htv]
          · simp [translateEndpoint, h1, h2, h3, h4, hres]

/-- Witness for C5 on a concrete request with an invalid target code. -/
theorem invalid_input_rejected_witness :
    translateEndpoint [("en", "english"), ("es", "spanish")] 5000
        (fun _ => PResp.ok "Hola" none) true true
        ⟨"Hello", some "en", none, some "xx", none⟩ "u@example.com" 120 7
        ⟨[], [], []⟩
      = ⟨400, false, [], 0, ⟨[], [], []⟩⟩ :=
  invalid_input_rejected _ _ _ _ _ _ _ _ _ _
    (Or.inr (Or.inr (Or.inr ⟨"xx", rfl, by decide, by decide⟩)))

/-- C7 counterexample: with the provider succeeding immediately and the
database block failing (`saveOk = false`, the `except` at `api_server.py`
lines 330-331), the endpoint still returns HTTP 200 with `success: true`
and the database keeps no record of the translation — the claim that a
failed durable append is surfaced as a failed translation is false. -/
theorem storage_failure_claims_success_cex :
    translateEndpoint [("en", "english"), ("es", "spanish")] 5000
        (fun _ => PResp.ok "Hola" (some (19 / 20))) true false
        ⟨"Hello", some "en", none, some "es", none⟩ "u@example.com" 120 7
        ⟨[], [], []⟩
      = ⟨200, true, [], 1, ⟨[], [], []⟩⟩ := by
  decide

/-- C7 amended: if the database write block fails after the provider call
succeeded, the endpoint swallows the failure (it only logs) and still
returns the 200 success response, leaving the database unchanged; the
failure is never surfaced to the caller. -/
theorem storage_failure_swallowed (langs : LangTable) (maxLen : ℕ)
    (provider : ℕ → PResp) (dbAvailable : Bool) (req : TranslateRequest)
    (userEmail : String) (latencyMs now : ℕ) (db : DBState)
    (htext : pyStrip req.text ≠ "")
    (hlen : (pyStrip req.text).length ≤ maxLen)
    (hsl : ∃ s, resolveLang langs req.source_lang req.source_lang_name = some s
        ∧ validate_language_code langs s = true)
    (htl : ∃ t, resolveLang langs req.target_lang req.target_lang_name = some t
        ∧ validate_language_code langs t = true)
    (hsucc : ∃ i, i < 5 ∧ validResp (provider i) = true) :
    (translateEndpoint langs maxLen provider dbAvailable false req userEmail
        latencyMs now db).status = 200
  ∧ (translateEndpoint langs maxLen provider dbAvailable false req userEmail
        latencyMs now db).success = true
  ∧ (translateEndpoint langs maxLen provider dbAvailable false req userEmail
        latencyMs now db).db = db := by
  obtain ⟨s, hs, hsv⟩ := hsl
  obtain ⟨t, ht, htv⟩ := htl
  obtain ⟨j, hj, hjv, hjs⟩ := translateRetry_first_valid provider hsucc
  obtain ⟨tx, c, htx, hstrip⟩ := validResp_ok hjv
  rw [htx] at hjs
  simp [translateEndpoint, htext, Nat.not_lt.mpr hlen, hs, ht, hsv, htv, hjs, hstrip]

/-- Witness for the amended C7 at a concrete request with a failing
database write. -/
theorem storage_failure_swallowed_witness :
    (translateEndpoint [("en", "english"), ("es", "spanish")] 5000
        (fun _ => PResp.ok "Hola" (some (19 / 20))) true false
        ⟨"Hello", some "en", none, some "es", none⟩ "u@example.com" 120 7
        ⟨[], [], []⟩).status = 200
  ∧ (translateEndpoint [("en", "english"), ("es", "spanish")] 5000
        (fun _ => PResp.ok "Hola" (some (19 / 20))) true false
        ⟨"Hello", some "en", none, some "es", none⟩ "u@example.com" 120 7
        ⟨[], [], []⟩).success = true
  ∧ (translateEndpoint [("en", "english"), ("es", "spanish")] 5000
        (fun _ => PResp.ok "Hola" (some (19 / 20))) true false
        ⟨"Hello", some "en", none, some "es", none⟩ "u@example.com" 120 7
        ⟨[], [], []⟩).db = ⟨[], [], []⟩ :=
  storage_failure_swallowed _ _ _ _ _ _ _ _ _ (by decide) (by decide)
    ⟨"en", by decide, by decide⟩ ⟨"es", by decide, by decide⟩
    ⟨0, by omega, by decide⟩

/-! ### Theorems: incremental averaging (C1) -/

/-- Folding updates preserves the row's key. -/
theorem foldl_update_key (es : List Event) (r : StatRow) :
    (es.foldl updateStatRow r).user_email = r.user_email
      ∧ (es.foldl updateStatRow r).language_pair = r.language_pair := by
  induction es generalizing r with
  | nil => exact ⟨rfl, rfl⟩
  | cons e es ih =>
    rw [List.foldl_cons]
    exact (ih (updateStatRow r e)).imp (fun h => h.trans rfl) fun h => h.trans rfl

/-- Each update increments the count by one. -/
theorem foldl_update_count (es : List Event) (r : StatRow) :
    (es.foldl updateStatRow r).translation_count
      = r.translation_count + es.length := by
  induction es generalizing r with
  | nil => rfl
  | cons e es ih =>
    rw [List.foldl_cons, ih]
    simp [updateStatRow]
    omega

/-- Each update adds the event latency to the running total. -/
theorem foldl_update_total (es : List Event) (r : StatRow) :
    (es.foldl updateStatRow r).total_translation_time
      = r.total_translation_time + (es.map Event.timeMs).sum := by
  induction es generalizing r with
  | nil => simp
  | cons e es ih =>
    rw [List.foldl_cons, ih]
    simp [updateStatRow]
    omega

/-- The running average times the running count accumulates the latency
sum exactly (the MySQL update divides by the already-incremented count). -/
theorem foldl_update_avg_mul (es : List Event) (r : StatRow)
    (hr : r.translation_count ≠ 0) :
    (es.foldl updateStatRow r).avg_translation_time
        * ((es.foldl updateStatRow r).translation_count : ℚ)
      = r.avg_translation_time * (r.translation_count : ℚ)
          + ((es.map Event.timeMs).sum : ℚ) := by
  induction es generalizing r with
  | nil => simp
  | cons e es ih =>
    rw [List.foldl_cons]
    have hr' : (updateStatRow r e).translation_count ≠ 0 := by
      simp [updateStatRow]
    rw [ih (updateStatRow r e) hr']
    have hc : ((r.translation_count + 1 : ℕ) : ℚ) ≠ 0 := by
      exact_mod_cast Nat.succ_ne_zero r.translation_count
    have hstep : (updateStatRow r e).avg_translation_time
        * ((updateStatRow r e).translation_count : ℚ)
        = r.avg_translation_time * (r.translation_count : ℚ) + (e.timeMs : ℚ) := by
      simp only [updateStatRow]
      rw [div_mul_eq_mul_div, div_eq_iff hc]
      push_cast
      ring
    rw [hstep]
    simp only [List.map_cons, List.sum_cons]
    push_cast
    ring

/-- Same accumulation property for the running confidence average. -/
theorem foldl_update_conf_mul (es : List Event) (r : StatRow)
    (hr : r.translation_count ≠ 0) :
    (es.foldl updateStatRow r).avg_confidence_score
        * ((es.foldl updateStatRow r).translation_count : ℚ)
      = r.avg_confidence_score * (r.translation_count : ℚ)
          + (es.map Event.conf).sum := by
  induction es generalizing r with
  | nil => simp
  | cons e es ih =>
    rw [List.foldl_cons]
    have hr' : (updateStatRow r e).translation_count ≠ 0 := by
      simp [updateStatRow]
    rw [ih (updateStatRow r e) hr']
    have hc : ((r.translation_count + 1 : ℕ) : ℚ) ≠ 0 := by
      exact_mod_cast Nat.succ_ne_zero r.translation_count
    have hstep : (updateStatRow r e).avg_confidence_score
        * ((updateStatRow r e).translation_count : ℚ)
        = r.avg_confidence_score * (r.translation_count : ℚ) + e.conf := by
      simp only [updateStatRow]
      rw [div_mul_eq_mul_div, div_eq_iff hc]
      push_cast
      ring
    rw [hstep]
    simp only [List.map_cons, List.sum_cons]
    ring

/-- Once the keyed row exists alone in the table, further upserts for the
same key are exactly the single-row update. -/
theorem foldl_upsert_singleton (email pair : String) (es : List Event) :
    ∀ r : StatRow, r.user_email = email → r.language_pair = pair →
      es.foldl (fun st e => upsertStats st email pair e) [r]
        = [es.foldl updateStatRow r] := by
  induction es with
  | nil => intro r _ _; rfl
  | cons e es ih =>
    intro r h1 h2
    have hup : upsertStats [r] email pair e = [updateStatRow r e] := by
      simp [upsertStats, hasStatKey, h1, h2]
    rw [List.foldl_cons, hup, List.foldl_cons]
    exact ih (updateStatRow r e) (by simp [updateStatRow, h1])
      (by simp [updateStatRow, h2])

/-- Recording a first event inserts the fresh row; the rest update it. -/
theorem statsAfter_cons (email pair : String) (e : Event) (es : List Event) :
    statsAfter email pair (e :: es)
      = [es.foldl updateStatRow (newStatRow email pair e)] := by
  have h0 : upsertStats [] email pair e = [newStatRow email pair e] := by
    simp [upsertStats, hasStatKey]
  rw [statsAfter, List.foldl_cons, h0]
  exact foldl_upsert_singleton email pair es _ rfl rfl

/-- Core accumulation facts about the single row produced by a non-empty
event sequence. -/
theorem statsAfter_row (email pair : String) (e : Event) (es : List Event) :
    ∃ row, statsAfter email pair (e :: es) = [row]
      ∧ row.translation_count = es.length + 1
      ∧ row.total_translation_time = e.timeMs + (es.map Event.timeMs).sum
      ∧ row.avg_translation_time * ((es.length + 1 : ℕ) : ℚ)
          = (e.timeMs : ℚ) + ((es.map Event.timeMs).sum : ℚ)
      ∧ row.avg_confidence_score * ((es.length + 1 : ℕ) : ℚ)
          = e.conf + (es.map Event.conf).sum := by
  refine ⟨_, statsAfter_cons email pair e es, ?_, ?_, ?_, ?_⟩
  · rw [foldl_update_count]
    simp [newStatRow]
    omega
  · rw [foldl_update_total]
    simp [newStatRow]
  · have h := foldl_update_avg_mul es (newStatRow email pair e)
      (by simp [newStatRow])
    rw [foldl_update_count] at h
    simp only [newStatRow] at h ⊢
    push_cast at h ⊢
    linear_combination h
  · have h := foldl_update_conf_mul es (newStatRow email pair e)
      (by simp [newStatRow])
    rw [foldl_update_count] at h
    simp only [newStatRow] at h ⊢
    push_cast at h ⊢
    linear_combination h

/-- C1: for every (user, language pair) and every non-empty sequence of
translation events recorded sequentially through the per-event upsert of
`save_translation`, the stored row ends with `translation_count = n`,
`avg_translation_time = (l1 + ... + ln) / n`,
`avg_confidence_score = (c1 + ... + cn) / n`, and after every prefix of
updates the row satisfies
`avg_translation_time = total_translation_time / translation_count`
(exact in ℚ; the FLOAT columns realise this within floating-point
tolerance). -/
theorem save_translation_incremental_average (email pair : String)
    (es : List Event) (h : es ≠ []) :
    (∃ row, statsAfter email pair es = [row]
      ∧ row.translation_count = es.length
      ∧ row.total_translation_time = (es.map Event.timeMs).sum
      ∧ row.avg_translation_time
          = ((es.map Event.timeMs).sum : ℚ) / (es.length : ℚ)
      ∧ row.avg_confidence_score
          = (es.map Event.conf).sum / (es.length : ℚ))
  ∧ (∀ k, 1 ≤ k → ∀ row', statsAfter email pair (es.take k) = [row'] →
      row'.avg_translation_time
        = (row'.total_translation_time : ℚ) / (row'.translation_count : ℚ)) := by
  obtain ⟨e, tl, rfl⟩ := List.exists_cons_of_ne_nil h
  constructor
  · obtain ⟨row, heq, hcount, htotal, havg, hconf⟩ := statsAfter_row email pair e tl
    have hn : (((e :: tl).length : ℕ) : ℚ) ≠ 0 := by
      simp only [List.length_cons]
      exact_mod_cast Nat.succ_ne_zero tl.length
    refine ⟨row, heq, by simpa using hcount, by simpa using htotal, ?_, ?_⟩
    · rw [eq_div_iff hn]
      simp only [List.map_cons, List.sum_cons, List.length_cons]
      push_cast at havg ⊢
      linear_combination havg
    · rw [eq_div_iff hn]
      simp only [List.map_cons, List.sum_cons, List.length_cons]
      push_cast at hconf ⊢
      linear_combination hconf
  · intro k hk row' hrow
    obtain ⟨k', rfl⟩ : ∃ k', k = k' + 1 := ⟨k - 1, by omega⟩
    rw [List.take_succ_cons] at hrow
    obtain ⟨row, heq, hcount, htotal, havg, _⟩ :=
      statsAfter_row email pair e (tl.take k')
    rw [heq, List.cons.injEq] at hrow
    obtain ⟨rfl, -⟩ := hrow
    have hn : ((row.translation_count : ℕ) : ℚ) ≠ 0 := by
      rw [hcount]
      exact_mod_cast Nat.succ_ne_zero (tl.take k').length
    rw [eq_div_iff hn, hcount, htotal]
    push_cast at havg ⊢
    linear_combination havg

/-- Witness for C1 on the spec's worked example: two events with
latencies 120, 180 and confidences 0.95, 0.85. -/
theorem save_translation_incremental_average_witness :
    (∃ row, statsAfter "u" "en-es"
          [⟨5, 120, 19 / 20, 1⟩, ⟨5, 180, 17 / 20, 2⟩] = [row]
      ∧ row.translation_count
          = ([⟨5, 120, 19 / 20, 1⟩, ⟨5, 180, 17 / 20, 2⟩] : List Event).length
      ∧ row.total_translation_time
          = (([⟨5, 120, 19 / 20, 1⟩, ⟨5, 180, 17 / 20, 2⟩] : List Event).map
              Event.timeMs).sum
      ∧ row.avg_translation_time
          = ((([⟨5, 120, 19 / 20, 1⟩, ⟨5, 180, 17 / 20, 2⟩] : List Event).map
              Event.timeMs).sum : ℚ)
            / (([⟨5, 120, 19 / 20, 1⟩, ⟨5, 180, 17 / 20, 2⟩] : List Event).length : ℚ)
      ∧ row.avg_confidence_score
          = (([⟨5, 120, 19 / 20, 1⟩, ⟨5, 180, 17 / 20, 2⟩] : List Event).map
              Event.conf).sum
            / (([⟨5, 120, 19 / 20, 1⟩, ⟨5, 180, 17 / 20, 2⟩] : List Event).length : ℚ))
  ∧ (∀ k, 1 ≤ k → ∀ row',
      statsAfter "u" "en-es"
          (([⟨5, 120, 19 / 20, 1⟩, ⟨5, 180, 17 / 20, 2⟩] : List Event).take k)
        = [row'] →
      row'.avg_translation_time
        = (row'.total_translation_time : ℚ) / (row'.translation_count : ℚ)) :=
  save_translation_incremental_average "u" "en-es"
    [⟨5, 120, 19 / 20, 1⟩, ⟨5, 180, 17 / 20, 2⟩] (List.cons_ne_nil _ _)

/-! ### Theorems: favorite flag (C6, C10) -/

/-- A list whose keys are pairwise distinct holds at most one row with a
given key. -/
theorem countP_key_le_one (stats : List StatRow) (email pair : String)
    (hpw : List.Pairwise
      (fun a b => a.user_email ≠ b.user_email ∨ a.language_pair ≠ b.language_pair)
      stats) :
    stats.countP (fun r => r.user_email == email && r.language_pair == pair)
      ≤ 1 := by
  induction stats with
  | nil => simp
  | cons a l ih =>
    rw [List.pairwise_cons] at hpw
    by_cases ha : (a.user_email == email && a.language_pair == pair) = true
    · have hz : l.countP
          (fun r => r.user_email == email && r.language_pair == pair) = 0 := by
        rw [List.countP_eq_zero]
        intro b hb hbk
        simp only [Bool.and_eq_true, beq_iff_eq] at ha hbk
        rcases hpw.1 b hb with hne | hne
        · exact hne (ha.1.trans hbk.1.symm)
        · exact hne (ha.2.trans hbk.2.symm)
      rw [List.countP_cons, hz]
      simp [ha]
    · rw [List.countP_cons]
      simp only [ha, if_false]
      simpa using ih hpw.2

/-- The two sequential `UPDATE`s of the favorite toggle (with
`is_favorite = TRUE`) act on each row as one case split: the keyed row
gets the flag, every other row of the user loses it, rows of other
users are untouched. -/
theorem set_fav_true_eq_map (stats : List StatRow) (email pair : String) :
    (set_favorite_language_pair stats email pair true).1
      = stats.map fun b =>
          if b.user_email == email && b.language_pair == pair then
            { b with favorite_pair := true }
          else if b.user_email == email then
            { b with favorite_pair := false }
          else b := by
  simp only [set_favorite_language_pair, if_true, List.map_map]
  apply List.map_congr_left
  intro b _
  by_cases h1 : (b.user_email == email) = true
  · by_cases h2 : (b.language_pair == pair) = true
    · simp [Function.comp, h1, h2]
    · simp [Function.comp, h1, h2]
  · simp [Function.comp, h1]

/-- C6: after the favorite toggle marks `pairB` favorite for a user,
every favorite row of that user is the `pairB` row (the toggle first
clears the flag on every other pair), so under the table's unique
`(user, pair)` key at most one row of the user is favorite; if the user
has a `pairB` row it ends up favorite (hence with a previously favorite
`pairA ≠ pairB`, exactly one of the two is favorite afterwards); and the
per-event upsert of `save_translation` never sets the favorite flag:
every favorite row after an upsert was already favorite before. -/
theorem favorite_exclusivity (stats : List StatRow) (email pairB : String) :
    (∀ r ∈ (set_favorite_language_pair stats email pairB true).1,
        r.user_email = email → r.favorite_pair = true → r.language_pair = pairB)
  ∧ (List.Pairwise
        (fun a b => a.user_email ≠ b.user_email ∨ a.language_pair ≠ b.language_pair)
        stats →
      (set_favorite_language_pair stats email pairB true).1.countP
          (fun r => r.user_email == email && r.favorite_pair) ≤ 1)
  ∧ ((∃ r ∈ stats, r.user_email = email ∧ r.language_pair = pairB) →
      ∃ r ∈ (set_favorite_language_pair stats email pairB true).1,
        r.user_email = email ∧ r.language_pair = pairB ∧ r.favorite_pair = true)
  ∧ (∀ (e : Event) (email2 pair2 : String) (r2 : StatRow),
      r2 ∈ upsertStats stats email2 pair2 e → r2.favorite_pair = true →
      ∃ r ∈ stats, r.user_email = r2.user_email
        ∧ r.language_pair = r2.language_pair ∧ r.favorite_pair = true) := by
  refine ⟨?_, ?_, ?_, ?_⟩
  · intro r hr hu hf
    rw [set_fav_true_eq_map] at hr
    obtain ⟨b, hb, rfl⟩ := List.mem_map.mp hr
    by_cases h1 : (b.user_email == email) = true
    · by_cases h2 : (b.language_pair == pairB) = true
      · simp only [beq_iff_eq] at h2
        simp [h1, h2]
      · simp [h1, h2] at hf
    · simp [h1] at hu hf ⊢
      simp only [beq_iff_eq] at h1
      exact absurd hu h1
  · intro hpw
    rw [set_fav_true_eq_map, List.countP_map]
    have hpt : stats.countP
        ((fun r => r.user_email == email && r.favorite_pair) ∘ fun b =>
          if b.user_email == email && b.language_pair == pairB then
            { b with favorite_pair := true }
          else if b.user_email == email then
            { b with favorite_pair := false }
          else b)
        = stats.countP
            (fun r => r.user_email == email && r.language_pair == pairB) := by
      apply List.countP_congr
      intro b _
      by_cases h1 : (b.user_email == email) = true
      · by_cases h2 : (b.language_pair == pairB) = true
        · simp [Function.comp, h1, h2]
        · simp [Function.comp, h1, h2]
      · simp [Function.comp, h1]
    rw [hpt]
    exact countP_key_le_one stats email pairB hpw
  · rintro ⟨r0, hr0, hu, hp⟩
    rw [set_fav_true_eq_map]
    refine ⟨_, List.mem_map_of_mem _ hr0, ?_⟩
    simp [hu, hp]
  · intro e email2 pair2 r2 hr2 hfav
    rw [upsertStats] at hr2
    by_cases hkey : hasStatKey stats email2 pair2
    · rw [if_pos hkey] at hr2
      obtain ⟨b, hb, rfl⟩ := List.mem_map.mp hr2
      by_cases hc : (b.user_email == email2 && b.language_pair == pair2) = true
      · rw [if_pos hc] at hfav ⊢
        exact ⟨b, hb, by simp [updateStatRow], by simp [updateStatRow],
          by simpa [updateStatRow] using hfav⟩
      · rw [if_neg hc] at hfav ⊢
        exact ⟨b, hb, rfl, rfl, hfav⟩
    · rw [if_neg hkey] at hr2
      rcases List.mem_append.mp hr2 with hb | hb
      · exact ⟨r2, hb, rfl, rfl, hfav⟩
      · rw [List.mem_singleton] at hb
        rw [hb] at hfav
        simp [newStatRow] at hfav

/-- Witness for C6 on a concrete two-row table where the user previously
had `en-es` favorite and now marks `en-fr` favorite. -/
theorem favorite_exclusivity_witness :
    ((set_favorite_language_pair
        [⟨"u", "en-es", 1, 5, 100, 100, 1, true, 1⟩,
         ⟨"u", "en-fr", 1, 5, 100, 100, 1, false, 2⟩] "u" "en-fr" true).1.countP
        (fun r => r.user_email == "u" && r.favorite_pair) ≤ 1)
  ∧ (∃ r ∈ (set_favorite_language_pair
        [⟨"u", "en-es", 1, 5, 100, 100, 1, true, 1⟩,
         ⟨"u", "en-fr", 1, 5, 100, 100, 1, false, 2⟩] "u" "en-fr" true).1,
      r.user_email = "u" ∧ r.language_pair = "en-fr" ∧ r.favorite_pair = true)
  ∧ (∀ r ∈ (set_favorite_language_pair
        [⟨"u", "en-es", 1, 5, 100, 100, 1, true, 1⟩,
         ⟨"u", "en-fr", 1, 5, 100, 100, 1, false, 2⟩] "u" "en-fr" true).1,
      r.user_email = "u" → r.favorite_pair = true → r.language_pair = "en-fr") := by
  have h := favorite_exclusivity
    [⟨"u", "en-es", 1, 5, 100, 100, 1, true, 1⟩,
     ⟨"u", "en-fr", 1, 5, 100, 100, 1, false, 2⟩] "u" "en-fr"
  exact ⟨h.2.1 (by decide), h.2.2.1 ⟨⟨"u", "en-fr", 1, 5, 100, 100, 1, false, 2⟩,
    by decide, rfl, rfl⟩, h.1⟩

/-- C10: calling the favorite toggle with `is_favorite = TRUE` for a pair
the user has no stats row for still clears the flag on every existing
row of the user, marks no row favorite (the final UPDATE matches
nothing), keeps the set of rows unchanged, and returns `True`. -/
theorem set_favorite_missing_pair (stats : List StatRow) (email pair : String)
    (h : ∀ r ∈ stats, ¬(r.user_email = email ∧ r.language_pair = pair)) :
    (set_favorite_language_pair stats email pair true).2 = true
  ∧ (∀ r ∈ (set_favorite_language_pair stats email pair true).1,
      r.user_email = email → r.favorite_pair = false)
  ∧ (set_favorite_language_pair stats email pair true).1.map
        (fun r => (r.user_email, r.language_pair))
      = stats.map fun r => (r.user_email, r.language_pair) := by
  refine ⟨rfl, ?_, ?_⟩
  · intro r hr hu
    rw [set_fav_true_eq_map] at hr
    obtain ⟨b, hb, rfl⟩ := List.mem_map.mp hr
    by_cases h1 : (b.user_email == email) = true
    · have h2 : (b.language_pair == pair) = false := by
        rw [beq_eq_false_iff_ne]
        intro hp
        exact h b hb ⟨by simpa using h1, hp⟩
      simp [h1, h2]
    · simp [h1] at hu ⊢
      simp only [beq_iff_eq] at h1
      exact absurd hu h1
  · rw [set_fav_true_eq_map, List.map_map]
    apply List.map_congr_left
    intro b _
    by_cases h1 : (b.user_email == email) = true
    · by_cases h2 : (b.language_pair == pair) = true
      · simp [Function.comp, h1, h2]
      · simp [Function.comp, h1, h2]
    · simp [Function.comp, h1]

/-- Witness for C10: toggling a pair with no row leaves the lone existing
row un-favorite while returning `True`. -/
theorem set_favorite_missing_pair_witness :
    (set_favorite_language_pair [⟨"u", "en-es", 1, 5, 100, 100, 1, true, 1⟩]
        "u" "en-fr" true).2 = true
  ∧ (∀ r ∈ (set_favorite_language_pair
        [⟨"u", "en-es", 1, 5, 100, 100, 1, true, 1⟩] "u" "en-fr" true).1,
      r.user_email = "u" → r.favorite_pair = false)
  ∧ (set_favorite_language_pair [⟨"u", "en-es", 1, 5, 100, 100, 1, true, 1⟩]
        "u" "en-fr" true).1.map (fun r => (r.user_email, r.language_pair))
      = [⟨"u", "en-es", 1, 5, 100, 100, 1, true, 1⟩].map
          fun r : StatRow => (r.user_email, r.language_pair) :=
  set_favorite_missing_pair [⟨"u", "en-es", 1, 5, 100, 100, 1, true, 1⟩]
    "u" "en-fr" (by decide)

/-! ### Theorems: top language pairs (C8) -/

/-- Inserting adds the new element and keeps the others. -/
theorem mem_insertByCount (a : PairAgg) (l : List PairAgg) (c : PairAgg)
    (hc : c ∈ insertByCount a l) : c = a ∨ c ∈ l := by
  induction l with
  | nil => simpa [insertByCount] using hc
  | cons b bs ih =>
    rw [insertByCount] at hc
    by_cases hba : b.count ≤ a.count
    · rw [if_pos hba] at hc
      rcases List.mem_cons.mp hc with hc | hc
      · exact Or.inl hc
      · exact Or.inr hc
    · rw [if_neg hba] at hc
      rcases List.mem_cons.mp hc with hc | hc
      · exact Or.inr (hc ▸ List.mem_cons_self b bs)
      · rcases ih hc with hc | hc
        · exact Or.inl hc
        · exact Or.inr (List.mem_cons_of_mem b hc)

/-- Insertion preserves the descending-count sorting. -/
theorem insertByCount_sorted (a : PairAgg) (l : List PairAgg)
    (hl : List.Pairwise (fun x y => y.count ≤ x.count) l) :
    List.Pairwise (fun x y => y.count ≤ x.count) (insertByCount a l) := by
  induction l with
  | nil => simp [insertByCount]
  | cons b bs ih =>
    rw [List.pairwise_cons] at hl
    rw [insertByCount]
    by_cases hba : b.count ≤ a.count
    · rw [if_pos hba, List.pairwise_cons]
      refine ⟨?_, List.pairwise_cons.mpr hl⟩
      intro y hy
      rcases List.mem_cons.mp hy with hy | hy
      · exact hy ▸ hba
      · exact le_trans (hl.1 y hy) hba
    · rw [if_neg hba, List.pairwise_cons]
      refine ⟨?_, ih hl.2⟩
      intro y hy
      rcases mem_insertByCount a bs y hy with hy | hy
      · exact hy ▸ le_of_lt (lt_of_not_le hba)
      · exact hl.1 y hy

/-- The stable sort produces a descending-count list. -/
theorem sortByCountDesc_sorted (l : List PairAgg) :
    List.Pairwise (fun x y => y.count ≤ x.count) (sortByCountDesc l) := by
  induction l with
  | nil => simp [sortByCountDesc]
  | cons a as ih => exact insertByCount_sorted a (sortByCountDesc as) ih

/-- C8 counterexample: the top-language-pairs query has no tie-break
clause (`ORDER BY count DESC` only, `database.py` line 595); with two
pairs of equal count where the group encountered first (alphabetically
and by first occurrence) is the one least recently used, the less
recently used pair is listed first, refuting the claimed
`lastUsedAt`-recency tie-break. -/
theorem top_pairs_tie_order_cex :
    ¬ List.Pairwise
        (fun a b => b.count < a.count
          ∨ (a.count = b.count ∧ b.last_used ≤ a.last_used))
        (topLanguagePairs
          [⟨"u", "en", "es", "a", "b", 1, 100, 0, 10⟩,
           ⟨"u", "en", "fr", "c", "d", 1, 100, 0, 20⟩] "u") := by
  decide

/-- C8 amended: the listing is ordered by descending translation count
(at most 20 rows), but equal-count pairs stay in their grouped order (the
SQL specifies no tie-break on `lastUsedAt` or anything else). -/
theorem top_pairs_sorted_by_count (rows : List TransRow) (user : String) :
    List.Pairwise (fun a b => b.count ≤ a.count) (topLanguagePairs rows user)
  ∧ (topLanguagePairs rows user).length ≤ 20 := by
  constructor
  · exact List.Pairwise.sublist (List.take_sublist _ _) (sortByCountDesc_sorted _)
  · exact List.length_take_le _ _

/-! ### Theorems: trend percentage (C9) -/

/-- C9: the trend computed by `get_daily_analytics` equals
`(recentMean - priorMean) / priorMean * 100` with `recentMean` the mean
of the most recent 7 daily counts and `priorMean` the mean of the prior
(up to) 7, and it is `0` whenever the prior mean is zero or fewer than 2
days of data exist. -/
theorem trend_formula (s : List ℕ) :
    (s.length < 2 → trend s = 0)
  ∧ (priorMean s = 0 → trend s = 0)
  ∧ (2 ≤ s.length → priorMean s ≠ 0 →
      trend s = (recentMean s - priorMean s) / priorMean s * 100) := by
  refine ⟨?_, ?_, ?_⟩
  · intro h
    rw [trend, if_neg (by omega)]
  · intro hp
    by_cases hlen : 1 < s.length
    · by_cases h7 : 7 < s.length
      · have hne : ((s.drop 7).take 7).length ≠ 0 := by
          simp only [List.length_take, List.length_drop]
          omega
        rw [priorMean, if_neg hne] at hp
        have hsum : (((s.drop 7).take 7).sum : ℚ) = 0 := by
          rcases div_eq_zero_iff.mp hp with h | h
          · exact h
          · exact absurd (by exact_mod_cast h) hne
        have holder : olderAvg s = 0 := by
          rw [olderAvg, if_pos h7, hsum, zero_div]
        rw [trend, if_pos hlen, holder]
        simp
      · rw [trend, if_pos hlen, olderAvg, if_neg h7]
        by_cases hpos : 0 < recentAvg s
        · rw [if_pos hpos, sub_self, zero_div, zero_mul]
        · rw [if_neg hpos]
    · rw [trend, if_neg hlen]
  · intro hlen2 hp
    have hne : ((s.drop 7).take 7).length ≠ 0 :=
      fun h0 => hp (by rw [priorMean, if_pos h0])
    have hlen7 : ((s.drop 7).take 7).length ≤ 7 := by
      simp [List.length_take]
    have hdlen : ((s.drop 7).take 7).length = min 7 (s.length - 7) := by
      simp [List.length_take, List.length_drop]
    have h7 : 7 < s.length := by omega
    have hlen1 : 1 < s.length := by omega
    have hmin1 : min 7 s.length = 7 := by omega
    have htake7 : (s.take 7).length = 7 := by
      simp only [List.length_take]
      omega
    have hmin2 : min 7 ((s.drop 7).take 7).length
        = ((s.drop 7).take 7).length := by omega
    have hprior : priorMean s
        = (((s.drop 7).take 7).sum : ℚ) / (((s.drop 7).take 7).length : ℚ) := by
      rw [priorMean, if_neg hne]
    have hsum0 : (((s.drop 7).take 7).sum : ℚ) ≠ 0 := by
      intro h0
      exact hp (by rw [hprior, h0, zero_div])
    have hsumpos : 0 < (((s.drop 7).take 7).sum : ℚ) :=
      lt_of_le_of_ne (by positivity) (Ne.symm hsum0)
    have hlenpos : 0 < (((s.drop 7).take 7).length : ℚ) := by
      exact_mod_cast Nat.pos_of_ne_zero hne
    have hppos : 0 < priorMean s := by
      rw [hprior]
      exact div_pos hsumpos hlenpos
    have holderEq : olderAvg s = priorMean s := by
      rw [olderAvg, if_pos h7, hmin2, hprior]
    have hrecentEq : recentAvg s = recentMean s := by
      rw [recentAvg, recentMean, if_neg (by rw [htake7]; omega), hmin1, htake7]
    rw [trend, if_pos hlen1, holderEq, hrecentEq, if_pos hppos]

/-- Witness for C9: the zero case on a 2-day series and the formula case
on an 8-day series. -/
theorem trend_formula_witness :
    trend [3, 1] = 0
  ∧ trend [1, 1, 1, 1, 1, 1, 1, 2]
      = (recentMean [1, 1, 1, 1, 1, 1, 1, 2] - priorMean [1, 1, 1, 1, 1, 1, 1, 2])
          / priorMean [1, 1, 1, 1, 1, 1, 1, 2] * 100 := by
  constructor
  · exact (trend_formula [3, 1]).2.1 (by norm_num [priorMean])
  · exact (trend_formula [1, 1, 1, 1, 1, 1, 1, 2]).2.2 (by decide)
      (by norm_num [priorMean])

end RTT
